import Mathlib

/-!
Verification of ChemInformant's resilient batch resolution and retrieval
engine against its specification.

The data model (`CompoundData`, the exception types, `weight_to_float`,
`model_config`) is embedded from `src/ChemInformant/models.py` (the source
is rendered inside `src/unnamed/part_011`).  The engine itself
(`ChemInformant.cheminfo_api.get_properties` and
`ChemInformant.api_helpers`: identifier classification, name resolution,
rate-limited transport with retry, persistent cache, batch dispatch and
pagination) is not present in the repository snapshot — only its
documentation is — so those components are modelled from the spec; each
such definition carries a doc comment starting `Modelled from the spec:`.
-/

namespace ChemInformant

/-! ## Data model, from `ChemInformant/models.py` -/

/-- Raw JSON-ish field value as it arrives from the remote payload:
`null`, a string, or a number.  Numbers are modelled as rationals. -/
inductive RawValue
  | null
  | str (s : String)
  | num (q : ℚ)
deriving DecidableEq

/-- Value of all the digits in `cs` read as a base-10 natural number. -/
def digitsVal (cs : List Char) : Nat :=
  cs.foldl (fun a c => 10 * a + (c.toNat - 48)) 0

/-- `true` iff every character of `cs` is a decimal digit. -/
def allDigits (cs : List Char) : Bool :=
  cs.all Char.isDigit

/-- Parse an unsigned decimal mantissa: digits, optionally with a single
decimal point (`"12"`, `"12."`, `".5"`, `"12.5"`); at least one digit is
required. -/
def parseMantissa (cs : List Char) : Option ℚ :=
  match cs.splitOn '.' with
  | [w] =>
      if !w.isEmpty && allDigits w then some (digitsVal w : ℚ) else none
  | [w, f] =>
      if (!w.isEmpty || !f.isEmpty) && allDigits w && allDigits f then
        some ((digitsVal w : ℚ) + (digitsVal f : ℚ) / (10 : ℚ) ^ f.length)
      else none
  | _ => none

/-- Parse an optionally signed decimal integer (exponent part). -/
def parseSignedInt (cs : List Char) : Option Int :=
  match cs with
  | '+' :: rest =>
      if !rest.isEmpty && allDigits rest then some (digitsVal rest : Int) else none
  | '-' :: rest =>
      if !rest.isEmpty && allDigits rest then some (-(digitsVal rest : Int)) else none
  | rest =>
      if !rest.isEmpty && allDigits rest then some (digitsVal rest : Int) else none

/-- Parse an unsigned float body: mantissa with an optional `e`-exponent
(input is already lower-cased). -/
def parseFloatBody (cs : List Char) : Option ℚ :=
  match cs.splitOn 'e' with
  | [m] => parseMantissa m
  | [m, ex] =>
      match parseMantissa m, parseSignedInt ex with
      | some q, some e => some (q * (10 : ℚ) ^ e)
      | _, _ => none
  | _ => none

/-- Strip leading and trailing whitespace from a character list. -/
def stripSpace (cs : List Char) : List Char :=
  ((cs.dropWhile Char.isWhitespace).reverse.dropWhile Char.isWhitespace).reverse

/-- Model of Python's `float(s)` builtin on a string argument, restricted
to decimal literals: surrounding whitespace is stripped, an optional
leading sign is accepted, then a decimal mantissa with optional exponent.
A string that does not parse raises `ValueError` in Python, modelled here
as `none`. -/
def pyFloatOfString (s : String) : Option ℚ :=
  match (stripSpace s.data).map Char.toLower with
  | '+' :: rest => parseFloatBody rest
  | '-' :: rest => (parseFloatBody rest).map (fun q => -q)
  | rest => parseFloatBody rest

/-- Model of Python's `float(v)` builtin on a raw payload value:
`float(None)` raises `TypeError` (modelled as `none`), a number converts
to itself, and a string goes through `pyFloatOfString`. -/
def pyFloat : RawValue → Option ℚ
  | .null => none
  | .num q => some q
  | .str s => pyFloatOfString s

/-- `CompoundData.weight_to_float` from `ChemInformant/models.py`:
the `mode="before"` field validator for `molecular_weight`.
Source: `if v is None or v == "N/A" or v == "": return None` then
`try: return float(v) except (ValueError, TypeError): return None`. -/
def weight_to_float (v : RawValue) : Option ℚ :=
  if v = .null ∨ v = .str "N/A" ∨ v = .str "" then none
  else pyFloat v

/-- `CompoundData` from `ChemInformant/models.py`: validated property bag
for one compound.  `cid` is the mandatory PubChem key; every other field
may individually be absent. -/
structure CompoundData where
  cid : Nat
  input_identifier : String ⊕ Int
  common_name : Option String := none
  cas : Option String := none
  unii : Option String := none
  molecular_formula : Option String := none
  molecular_weight : Option ℚ := none
  canonical_smiles : Option String := none
  iupac_name : Option String := none
  description : Option String := none
  synonyms : List String := []
deriving DecidableEq

/-- Pydantic `extra` policy (the source selects `"ignore"`). -/
inductive ExtraPolicy
  | allow
  | ignore
  | forbid
deriving DecidableEq

/-- Shape of the Pydantic `model_config` dictionary set on `CompoundData`. -/
structure ModelConfigData where
  populate_by_name : Bool
  extra : ExtraPolicy
  frozen : Bool
  computed_fields : List String
deriving DecidableEq

/-- `CompoundData.model_config` from `ChemInformant/models.py`:
`{"populate_by_name": True, "extra": "ignore", "frozen": False,
"computed_fields": ["pubchem_url"]}`. -/
def model_config : ModelConfigData :=
  { populate_by_name := true
    extra := .ignore
    frozen := false
    computed_fields := ["pubchem_url"] }

/-- Pydantic attribute assignment semantics: setting a field on a model
whose config has `frozen = True` raises a validation error (`none`);
otherwise the stored field is updated in place (`some` of the mutated
record). Applied here to `molecular_weight`. -/
def setMolecularWeight (cfg : ModelConfigData) (r : CompoundData) (v : Option ℚ) :
    Option CompoundData :=
  if cfg.frozen then none else some { r with molecular_weight := v }

/-- `CompoundData.pubchem_url` computed field from the source: the PubChem
compound page URL when `cid` is truthy. -/
def pubchem_url (r : CompoundData) : Option String :=
  if r.cid ≠ 0 then
    some ("https://pubchem.ncbi.nlm.nih.gov/compound/" ++ toString r.cid)
  else none

/-- `AmbiguousIdentifierError` from `ChemInformant/models.py`: raised when
a name maps to multiple CIDs.  Its `identifier` argument is typed `str` in
the source — only names can be ambiguous. -/
structure AmbiguousIdentifierError where
  identifier : String
  cids : List Nat
deriving DecidableEq

/-- `NotFoundError` from `ChemInformant/models.py`: the identifier (name
or CID) was not found. -/
structure NotFoundError where
  identifier : String ⊕ Int
deriving DecidableEq

/-! ## Resolution engine

Modelled from the spec: the engine (`ChemInformant.cheminfo_api.get_properties`
and the resolution helpers in `ChemInformant.api_helpers`) is not present in
the repository snapshot, only its documentation; the definitions below follow
§3, §4.1, §4.5 and §4.6 of the spec. -/

/-- Modelled from the spec: classified input identifier (§3), a tagged
variant over Key(integer), Name(string), Structure(string). -/
inductive Identifier
  | key (k : Int)
  | name (n : String)
  | struct (s : String)
deriving DecidableEq

/-- Modelled from the spec: result of one remote attribute fetch for a
key — a validated record, a definitive absence, or a transport failure. -/
inductive FetchResult
  | found (r : CompoundData)
  | absent
  | failed (kind : String)
deriving DecidableEq

/-- Modelled from the spec: the remote service boundary (§6) as seen by
the resolution layer: a name→key lookup, attribute retrieval by key, and
attribute retrieval by structure string. -/
structure RemoteEnv where
  nameLookup : String → List Nat
  fetch : Nat → FetchResult
  structFetch : String → FetchResult

/-- Modelled from the spec: `ResolutionOutcome` (§3), one per input
identifier. -/
inductive ResolutionOutcome
  | resolved (key : Nat) (record : CompoundData)
  | notFound
  | ambiguous (candidates : List Nat)
  | invalidInput (reason : String)
  | transportError (kind : String)
deriving DecidableEq

/-- Modelled from the spec: batched attribute retrieval for one resolved
key (§4.5): a found record yields `resolved`, a definitive absence yields
`notFound`, a transport failure yields `transportError` for that
identifier only. -/
def retrieveByKey (env : RemoteEnv) (k : Nat) : ResolutionOutcome :=
  match env.fetch k with
  | .found r => .resolved k r
  | .absent => .notFound
  | .failed kind => .transportError kind

/-- Modelled from the spec: resolution of one identifier (§4.1, §4.5).
A non-positive key is `InvalidInput` (classifier, §4.1).  A name first
goes through the name→key lookup: zero matches is `NotFound`, exactly one
match proceeds to attribute retrieval, two or more matches is `Ambiguous`
with the full candidate list and no retrieval.  Key and structure inputs
go to attribute retrieval directly. -/
def resolveOne (env : RemoteEnv) : Identifier → ResolutionOutcome
  | .key k => if k ≤ 0 then .invalidInput "non-positive key" else retrieveByKey env k.toNat
  | .name n =>
      match env.nameLookup n with
      | [] => .notFound
      | [k] => retrieveByKey env k
      | k :: k2 :: ks => .ambiguous (k :: k2 :: ks)
  | .struct s =>
      match env.structFetch s with
      | .found r => .resolved r.cid r
      | .absent => .notFound
      | .failed kind => .transportError kind

/-- Modelled from the spec: `resolve` (§4.5) processes every identifier
independently, preserving the caller's order and duplicates. -/
def resolve (env : RemoteEnv) (ids : List Identifier) :
    List (Identifier × ResolutionOutcome) :=
  ids.map (fun i => (i, resolveOne env i))

/-- Modelled from the spec: row status label, one of the
`ResolutionOutcome` variant names (§4.6). -/
inductive Status
  | resolved
  | notFound
  | ambiguous
  | invalidInput
  | transportError
deriving DecidableEq

/-- Status label of an outcome. -/
def statusOf : ResolutionOutcome → Status
  | .resolved _ _ => .resolved
  | .notFound => .notFound
  | .ambiguous _ => .ambiguous
  | .invalidInput _ => .invalidInput
  | .transportError _ => .transportError

/-- Resolved key of an outcome, when there is one. -/
def keyOf : ResolutionOutcome → Option Nat
  | .resolved k _ => some k
  | _ => none

/-- A cell value in the result table: a string or a number. -/
inductive AttrValue
  | s (v : String)
  | q (v : ℚ)
deriving DecidableEq

/-- Attribute read from a validated record by requested attribute name;
absent fields and unknown names give `none`. -/
def getAttr (r : CompoundData) : String → Option AttrValue
  | "cas" => r.cas.map .s
  | "unii" => r.unii.map .s
  | "common_name" => r.common_name.map .s
  | "molecular_formula" => r.molecular_formula.map .s
  | "molecular_weight" => r.molecular_weight.map .q
  | "canonical_smiles" => r.canonical_smiles.map .s
  | "iupac_name" => r.iupac_name.map .s
  | _ => none

/-- Modelled from the spec: one row of the output table (§4.6): the
original identifier, the resolved key if any, exactly one status label,
and one column per requested attribute. -/
structure ResultRow where
  input : Identifier
  key : Option Nat
  status : Status
  values : List (Option AttrValue)
deriving DecidableEq

/-- Row built from one identifier/outcome pair (§4.6); attribute columns
are empty wherever no record was resolved. -/
def rowOf (attrs : List String) (io : Identifier × ResolutionOutcome) : ResultRow :=
  { input := io.1
    key := keyOf io.2
    status := statusOf io.2
    values := attrs.map (fun a =>
      match io.2 with
      | .resolved _ r => getAttr r a
      | _ => none) }

/-- Modelled from the spec: the Result Assembler (§4.6) joins the ordered
outcome list into one row-oriented table. -/
def assemble (outs : List (Identifier × ResolutionOutcome)) (attrs : List String) :
    List ResultRow :=
  outs.map (rowOf attrs)

/-- Modelled from the spec: the inbound contract `retrieve`/`get_properties`
(§6): classify → resolve → assemble, one call in, one structured table out. -/
def get_properties (env : RemoteEnv) (ids : List Identifier) (attrs : List String) :
    List ResultRow :=
  assemble (resolve env ids) attrs

/-! ## Rate-limited transport: retry with exponential backoff (§4.2) -/

/-- Modelled from the spec: the remote's answer to one attempt (§4.2):
a success payload, a transient busy/overload (or network-level) signal,
or a definitive non-transient "not found". -/
inductive RemoteSignal
  | ok (payload : String)
  | busy
  | missing
deriving DecidableEq

/-- Modelled from the spec: transport result (§4.2): success, immediate
definitive absence, or the `TransportError` value produced when the
retry cap is exhausted. -/
inductive SendResult
  | success (payload : String)
  | notFound
  | transportError
deriving DecidableEq

/-- Modelled from the spec: the transport's retry loop (§4.2).
`responses i` is the remote's answer to the i-th attempt; `fuel` is the
number of attempts the cap still allows.  A transient `busy` signal
retries the same request; `missing` returns immediately; running out of
attempts yields the `transportError` result value. -/
def sendWithRetry (responses : Nat → RemoteSignal) (attempt : Nat) : Nat → SendResult
  | 0 => .transportError
  | fuel + 1 =>
    match responses attempt with
    | .ok p => .success p
    | .missing => .notFound
    | .busy => sendWithRetry responses (attempt + 1) fuel

/-- Transport entry point: at most `cap` attempts, starting at attempt 0. -/
def send (responses : Nat → RemoteSignal) (cap : Nat) : SendResult :=
  sendWithRetry responses 0 cap

/-- Modelled from the spec: delay waited before retry `i` (§4.2): a base
delay doubling each retry plus randomized jitter. -/
def backoffDelay (base : Nat) (jitter : Nat → Nat) (i : Nat) : Nat :=
  base * 2 ^ i + jitter i

/-! ## Batch dispatcher: pagination (§4.4) -/

/-- Modelled from the spec: one page of a paginated remote response
(§4.4, §6): partial results plus an optional continuation token. -/
structure PageResponse (α : Type) where
  results : List α
  next : Option Nat

/-- Modelled from the spec: the Dispatcher's pagination loop (§4.4):
keep issuing follow-up calls with the continuation token until it is
exhausted, accumulating every partial page.  `fuel` bounds the number of
wire calls; `none` means the loop was cut off before the token was
exhausted. -/
def fetchAllPages {α : Type} (remote : Nat → PageResponse α) : Nat → Nat → Option (List α)
  | _, 0 => none
  | tok, fuel + 1 =>
    match (remote tok).next with
    | none => some (remote tok).results
    | some t2 => (fetchAllPages remote t2 fuel).map ((remote tok).results ++ ·)

/-- Remote service paging out the page list `ps`: token `i` serves page
`i` together with a continuation token exactly when pages remain. -/
def pagedRemote {α : Type} (ps : List (List α)) : Nat → PageResponse α :=
  fun i => ⟨ps.getD i [], if i + 1 < ps.length then some (i + 1) else none⟩

/-! ## Persistent cache (§4.3) -/

/-- Modelled from the spec: a cached definitive outcome (§3, §4.3): a raw
payload, or the explicit "confirmed absent" negative marker. -/
inductive CachedValue
  | hit (payload : String)
  | confirmedAbsent
deriving DecidableEq

/-- Modelled from the spec: `CacheEntry` (§3): cached value plus creation
time. -/
structure CacheEntry where
  value : CachedValue
  created : Nat
deriving DecidableEq

/-- Cache contents, keyed by normalized request fingerprint. -/
abbrev Cache : Type := String → Option CacheEntry

/-- Modelled from the spec: expiry policy (§3, §4.3).  `ttl = none` is the
"never expires" sentinel, `ttl = some 0` the "always expires" sentinel. -/
def isExpired (ttl : Option Nat) (now : Nat) (e : CacheEntry) : Bool :=
  match ttl with
  | none => false
  | some d => decide (e.created + d ≤ now)

/-- Result replayed from a cache entry: a payload replays as success, the
negative marker replays as the definitive not-found. -/
def toSendResult : CachedValue → SendResult
  | .hit p => .success p
  | .confirmedAbsent => .notFound

/-- Value to cache for a network outcome: definitive outcomes (success or
confirmed absence) are cached, a transport error is not. -/
def cacheValueOf : SendResult → Option CachedValue
  | .success p => some (.hit p)
  | .notFound => some .confirmedAbsent
  | .transportError => none

/-- Modelled from the spec: the miss path of the cache-wrapped transport
(§4.3): perform the network call (whose result is `net`), store any
definitive outcome under the fingerprint at time `now`, and report one
outbound call. -/
def cacheMiss (net : SendResult) (cache : Cache) (fp : String) (now : Nat) :
    SendResult × Cache × Nat :=
  match cacheValueOf net with
  | some cv => (net, fun f => if f = fp then some ⟨cv, now⟩ else cache f, 1)
  | none => (net, cache, 1)

/-- Modelled from the spec: one cache-wrapped outbound call (§4.3): an
unexpired hit short-circuits the network entirely (zero outbound calls);
a miss or an expired entry goes through `cacheMiss`.  The third component
counts outbound network calls. -/
def cachedSend (net : SendResult) (cache : Cache) (fp : String) (now : Nat)
    (ttl : Option Nat) : SendResult × Cache × Nat :=
  match cache fp with
  | some e =>
      if isExpired ttl now e then cacheMiss net cache fp now
      else (toSendResult e.value, cache, 0)
  | none => cacheMiss net cache fp now

/-! ## Rate limiter (§3, §4.2, §5) -/

/-- Modelled from the spec: `RateLimiterState` admission, sequentialized
at the limiter, which §5 makes the single mandatory serialization point.
`req i` is the time the i-th outbound request becomes ready; its actual
send time additionally waits until the request `limit` positions earlier
is a full `period` old (the rolling-window ceiling: at most `limit`
requests per trailing `period`). -/
def sendTime (limit period : Nat) (req : Nat → Nat) (i : Nat) : Nat :=
  if _h : 0 < limit ∧ limit ≤ i then
    max (req i) (sendTime limit period req (i - limit) + period)
  else req i
termination_by i
decreasing_by omega

/-! ## Shared concrete inputs used by the witness theorems -/

/-- A concrete validated record (aspirin, CID 2244). -/
def aspirinRecord : CompoundData :=
  { cid := 2244, input_identifier := Sum.inl "Aspirin" }

/-- Concrete name→key lookup: "glucose" is ambiguous, "aspirin" unique,
everything else unknown. -/
def demoLookup : String → List Nat :=
  fun n =>
    if n = "glucose" then [5793, 10954115]
    else if n = "aspirin" then [2244] else []

/-- Concrete attribute fetch: key 2244 resolves, everything else is
definitively absent. -/
def demoFetch : Nat → FetchResult :=
  fun k => if k = 2244 then .found aspirinRecord else .absent

/-- Concrete remote environment for the witnesses. -/
def demoEnv : RemoteEnv :=
  { nameLookup := demoLookup, fetch := demoFetch, structFetch := fun _ => .absent }

/-- Remote that is busy on the first attempt and succeeds on the second. -/
def demoResponses : Nat → RemoteSignal :=
  fun i => if i = 0 then .busy else .ok "payload"

/-- Remote that is busy on every attempt. -/
def demoBusy : Nat → RemoteSignal := fun _ => .busy

/-- Remote that answers a definitive "not found" at once. -/
def demoMissing : Nat → RemoteSignal := fun _ => .missing

/-- The empty cache. -/
def emptyCache : Cache := fun _ => none

/-- A concrete cache entry written at time 10. -/
def demoEntry : CacheEntry := ⟨.hit "cached", 10⟩

/-- A cache holding `demoEntry` under fingerprint "fp1". -/
def demoCache : Cache := fun f => if f = "fp1" then some demoEntry else none

/-- `true` exactly on the `resolved` variant. -/
def isResolvedOutcome : ResolutionOutcome → Bool
  | .resolved _ _ => true
  | _ => false

/-- `true` exactly on the `notFound` variant. -/
def isNotFoundOutcome : ResolutionOutcome → Bool
  | .notFound => true
  | _ => false

/-- `true` exactly on the `ambiguous` variant. -/
def isAmbiguousOutcome : ResolutionOutcome → Bool
  | .ambiguous _ => true
  | _ => false

/-- `true` exactly on the `invalidInput` variant. -/
def isInvalidInputOutcome : ResolutionOutcome → Bool
  | .invalidInput _ => true
  | _ => false

/-- `true` exactly on the `transportError` variant. -/
def isTransportErrorOutcome : ResolutionOutcome → Bool
  | .transportError _ => true
  | _ => false

/-! ## Claim theorems -/

/-- C1: for every input batch and requested attribute set, the result
table of `get_properties` has exactly one row per input identifier, and
the rows carry exactly the caller's inputs in the caller's order,
duplicates included. -/
theorem get_properties_one_row_per_input (env : RemoteEnv) (ids : List Identifier)
    (attrs : List String) :
    (get_properties env ids attrs).length = ids.length ∧
    (get_properties env ids attrs).map ResultRow.input = ids := by
  constructor
  · simp [get_properties, assemble, resolve]
  · simp only [get_properties, assemble, resolve, List.map_map]
    rw [show (ResultRow.input ∘ rowOf attrs ∘ fun i => (i, resolveOne env i)) = id from
      funext fun i => rfl, List.map_id]

/-- C2: each identifier's outcome is computed locally: resolving a batch
containing `x` yields exactly the rows of the batch without `x`, with
`x`'s own row (whatever its status — invalid, not-found, ambiguous or
transport failure) spliced in at its position; no identifier's failure
aborts or alters the processing of the rest. -/
theorem resolve_failure_isolated (env : RemoteEnv) (pre post : List Identifier)
    (x : Identifier) (attrs : List String) :
    resolve env (pre ++ x :: post) =
      resolve env pre ++ (x, resolveOne env x) :: resolve env post ∧
    get_properties env (pre ++ x :: post) attrs =
      get_properties env pre attrs ++
        rowOf attrs (x, resolveOne env x) :: get_properties env post attrs := by
  constructor <;> simp [resolve, get_properties, assemble]

/-- C3: resolving a Name identifier first performs the name→key lookup:
zero matching keys gives `notFound`; exactly one key proceeds to batched
attribute retrieval for that key; two or more keys give `ambiguous`
carrying the full candidate list, and attribute retrieval is not
attempted (the outcome is the same under every fetch function — no
candidate is arbitrarily picked). -/
theorem name_resolution_cases (lookup : String → List Nat) (fetch : Nat → FetchResult)
    (sf : String → FetchResult) (s : String) :
    (lookup s = [] → resolveOne ⟨lookup, fetch, sf⟩ (.name s) = .notFound) ∧
    (∀ k, lookup s = [k] →
      resolveOne ⟨lookup, fetch, sf⟩ (.name s) = retrieveByKey ⟨lookup, fetch, sf⟩ k) ∧
    (2 ≤ (lookup s).length →
      ∀ fetch2 sf2, resolveOne ⟨lookup, fetch2, sf2⟩ (.name s) = .ambiguous (lookup s)) := by
  refine ⟨fun h => by simp [resolveOne, h], fun k h => by simp [resolveOne, h],
    fun h fetch2 sf2 => ?_⟩
  match hl : lookup s with
  | [] => rw [hl] at h; simp at h
  | [k] => rw [hl] at h; simp at h
  | k :: k2 :: ks => simp [resolveOne, hl]

/-- Witness for C3 at a concrete lookup: an unknown name is `notFound`,
"aspirin" proceeds to retrieval for its unique key, and "glucose" is
`ambiguous` with both candidate keys. -/
theorem name_resolution_cases_witness :
    resolveOne demoEnv (.name "nosuch") = .notFound ∧
    resolveOne demoEnv (.name "aspirin") = retrieveByKey demoEnv 2244 ∧
    resolveOne demoEnv (.name "glucose") = .ambiguous [5793, 10954115] := by
  refine ⟨(name_resolution_cases demoLookup demoFetch (fun _ => .absent) "nosuch").1 rfl,
    (name_resolution_cases demoLookup demoFetch (fun _ => .absent) "aspirin").2.1 2244 rfl, ?_⟩
  have h := (name_resolution_cases demoLookup demoFetch (fun _ => .absent) "glucose").2.2
    (by decide) demoFetch (fun _ => .absent)
  simpa [demoLookup] using h

/-- C8: exactly one `ResolutionOutcome` variant holds for every outcome,
and the `ambiguous` outcome never arises for a Key input (nor for a
Structure input): only Name resolution can produce it. -/
theorem outcome_variant_invariant :
    (∀ (env : RemoteEnv) (k : Int) (cs : List Nat),
      resolveOne env (.key k) ≠ .ambiguous cs) ∧
    (∀ (env : RemoteEnv) (s : String) (cs : List Nat),
      resolveOne env (.struct s) ≠ .ambiguous cs) ∧
    (∀ o : ResolutionOutcome,
      ([isResolvedOutcome o, isNotFoundOutcome o, isAmbiguousOutcome o,
        isInvalidInputOutcome o, isTransportErrorOutcome o].count true) = 1) := by
  refine ⟨?_, ?_, ?_⟩
  · intro env k cs
    by_cases hk : k ≤ 0
    · simp [resolveOne, hk]
    · simp only [resolveOne, hk, if_false]
      unfold retrieveByKey
      cases env.fetch k.toNat <;> simp
  · intro env s cs
    simp only [resolveOne]
    cases env.structFetch s <;> simp
  · intro o; cases o <;> rfl

/-- Witness for C8 at concrete inputs: a Key input and a Structure input
are never `ambiguous`, and a concrete outcome satisfies exactly one
variant predicate. -/
theorem outcome_variant_invariant_witness :
    resolveOne demoEnv (.key 2244) ≠ .ambiguous [2244] ∧
    resolveOne demoEnv (.struct "CCO") ≠ .ambiguous [702] ∧
    ([isResolvedOutcome .notFound, isNotFoundOutcome .notFound, isAmbiguousOutcome .notFound,
      isInvalidInputOutcome .notFound, isTransportErrorOutcome .notFound].count true) = 1 :=
  ⟨outcome_variant_invariant.1 demoEnv 2244 [2244],
    outcome_variant_invariant.2.1 demoEnv "CCO" [702],
    outcome_variant_invariant.2.2 .notFound⟩

/-- C9: the validated `molecular_weight` field equals Python's float
conversion of the raw value whenever that conversion succeeds and is
absent (`none`) for every non-convertible value — including `None`,
`"N/A"`, the empty string and non-numeric text — with no exception and no
record-level failure (the validator is a total function into `Option`). -/
theorem weight_to_float_spec :
    (∀ v, weight_to_float v = pyFloat v) ∧
    weight_to_float .null = none ∧
    weight_to_float (.str "N/A") = none ∧
    weight_to_float (.str "") = none ∧
    weight_to_float (.str "abc") = none ∧
    weight_to_float (.str "180.16") = some (4504 / 25) ∧
    (∀ q : ℚ, weight_to_float (.num q) = some q) := by
  refine ⟨?_, rfl, rfl, rfl, rfl, ?_, fun q => rfl⟩
  · intro v
    cases v with
    | null => rfl
    | num q => rfl
    | str s =>
      by_cases h1 : s = "N/A"
      · subst h1; rfl
      · by_cases h2 : s = ""
        · subst h2; rfl
        · simp [weight_to_float, pyFloat, h1, h2]
  · have h : pyFloatOfString "180.16" =
        some (((180 : ℕ) : ℚ) + ((16 : ℕ) : ℚ) / (10 : ℚ) ^ (2 : ℕ)) := rfl
    have h2 : weight_to_float (.str "180.16") = pyFloatOfString "180.16" := rfl
    rw [h2, h]; norm_num

/-- C10 counterexample: `CompoundData`'s own `model_config` sets
`frozen` to `False`, so a constructed record is not immutable — a field
assignment on a concrete record succeeds and changes the stored value
instead of being rejected. -/
theorem compound_mutability_counterexample :
    model_config.frozen = false ∧
    setMolecularWeight model_config aspirinRecord (some 5) =
      some { aspirinRecord with molecular_weight := some 5 } ∧
    ({ aspirinRecord with molecular_weight := some 5 } : CompoundData).molecular_weight ≠
      aspirinRecord.molecular_weight := by
  refine ⟨rfl, rfl, by simp [aspirinRecord]⟩

/-- C10 amended: `CompoundData` records are not enforced immutable:
`model_config` sets `frozen := False`, so field assignment after
construction is accepted (it yields the updated record rather than a
validation error) for every record and value. -/
theorem setMolecularWeight_not_frozen (r : CompoundData) (v : Option ℚ) :
    model_config.frozen = false ∧
    setMolecularWeight model_config r v = some { r with molecular_weight := v } :=
  ⟨rfl, rfl⟩

/-- Helper: when the remote answers `busy` to the first `m` attempts and
`ok` to attempt `m`, the retry loop started at any attempt offset
succeeds, provided the cap allows `m + 1` attempts. -/
theorem sendWithRetry_success (responses : Nat → RemoteSignal) (p : String) :
    ∀ (m fuel attempt : Nat), m < fuel →
      (∀ j, j < m → responses (attempt + j) = .busy) →
      responses (attempt + m) = .ok p →
      sendWithRetry responses attempt fuel = .success p := by
  intro m
  induction m with
  | zero =>
    intro fuel attempt hm hb hok
    match fuel, hm with
    | fuel + 1, _ =>
      simp only [sendWithRetry, show responses attempt = .ok p from by simpa using hok]
  | succ m ih =>
    intro fuel attempt hm hb hok
    match fuel, hm with
    | fuel + 1, _ =>
      have h0 : responses attempt = .busy := by simpa using hb 0 (by omega)
      simp only [sendWithRetry, h0]
      refine ih fuel (attempt + 1) (by omega) ?_ ?_
      · intro j hj
        have := hb (j + 1) (by omega)
        rwa [show attempt + (j + 1) = attempt + 1 + j from by omega] at this
      · rwa [show attempt + (m + 1) = attempt + 1 + m from by omega] at hok

/-- Helper: a remote that is busy on every attempt exhausts any cap. -/
theorem sendWithRetry_allBusy (responses : Nat → RemoteSignal)
    (h : ∀ j, responses j = .busy) :
    ∀ fuel attempt, sendWithRetry responses attempt fuel = .transportError := by
  intro fuel
  induction fuel with
  | zero => intro attempt; rfl
  | succ f ih => intro attempt; simp only [sendWithRetry, h attempt]; exact ih (attempt + 1)

/-- C4: the transport retries the same request on transient failure
signals — a run of busy answers followed by a success within the attempt
cap yields the successful response; a remote that stays busy past the cap
yields the `transportError` result value (not a propagated fault); a
non-transient "not found" answer is returned immediately, already at cap
1, with no retry; and the backoff between attempts grows exponentially:
the jitter-free delay doubles each retry, and with jitter bounded by the
base term the delays never shrink. -/
theorem transport_retry_policy (base cap : Nat) (jitter : Nat → Nat) (p : String)
    (responses : Nat → RemoteSignal) :
    (∀ m, m < cap → (∀ j, j < m → responses j = .busy) → responses m = .ok p →
      send responses cap = .success p) ∧
    ((∀ j, responses j = .busy) → send responses cap = .transportError) ∧
    (responses 0 = .missing → 0 < cap → send responses cap = .notFound) ∧
    (∀ r2 : Nat → RemoteSignal, r2 0 = .missing → send r2 1 = .notFound) ∧
    (∀ i, backoffDelay base (fun _ => 0) (i + 1) = 2 * backoffDelay base (fun _ => 0) i) ∧
    (∀ i, jitter i ≤ base * 2 ^ i →
      backoffDelay base jitter i ≤ backoffDelay base jitter (i + 1)) := by
  refine ⟨?_, ?_, ?_, ?_, ?_, ?_⟩
  · intro m hm hb hok
    exact sendWithRetry_success responses p m cap 0 hm (by simpa using hb) (by simpa using hok)
  · intro h; exact sendWithRetry_allBusy responses h cap 0
  · intro h0 hcap
    match cap, hcap with
    | c + 1, _ => simp only [send, sendWithRetry, h0]
  · intro r2 h0; simp only [send, sendWithRetry, h0]
  · intro i; simp only [backoffDelay]; ring
  · intro i hj
    have h2 : base * 2 ^ (i + 1) = base * 2 ^ i + base * 2 ^ i := by ring
    simp only [backoffDelay, h2]
    omega

/-- Witness for C4 at concrete remotes: busy-then-ok succeeds within a
cap of 3, an always-busy remote exhausts a cap of 5 into the
`transportError` value, a definitive miss returns at once, and the
concrete backoff delays double and never shrink. -/
theorem transport_retry_policy_witness :
    send demoResponses 3 = .success "payload" ∧
    send demoBusy 5 = .transportError ∧
    send demoMissing 4 = .notFound ∧
    send demoMissing 1 = .notFound ∧
    backoffDelay 100 (fun _ => 0) 1 = 2 * backoffDelay 100 (fun _ => 0) 0 ∧
    backoffDelay 100 (fun i => i) 2 ≤ backoffDelay 100 (fun i => i) 3 := by
  refine ⟨?_, ?_, ?_, ?_, ?_, ?_⟩
  · exact (transport_retry_policy 100 3 (fun _ => 0) "payload" demoResponses).1 1
      (by decide) (fun j hj => by interval_cases j; rfl) rfl
  · exact (transport_retry_policy 100 5 (fun _ => 0) "x" demoBusy).2.1 (fun _ => rfl)
  · exact (transport_retry_policy 100 4 (fun _ => 0) "x" demoMissing).2.2.1 rfl (by decide)
  · exact (transport_retry_policy 100 4 (fun _ => 0) "x" demoMissing).2.2.2.1
      demoMissing rfl
  · exact (transport_retry_policy 100 0 (fun _ => 0) "x" demoBusy).2.2.2.2.1 0
  · exact (transport_retry_policy 100 0 (fun i => i) "x" demoBusy).2.2.2.2.2 2 (by decide)

/-- C5: cache semantics of the wrapped transport: an unexpired hit —
including a cached negative "confirmed not found" entry — short-circuits
the network entirely (zero outbound calls, cache unchanged); a miss
performs exactly one network call and stores any definitive outcome under
the fingerprint before returning it; an expired entry behaves exactly as
a miss; and repeating an identical call whose first run ended definitive,
against the still-warm cache, returns the identical result with zero new
outbound calls, whatever the network would now answer. -/
theorem cache_semantics (net net2 : SendResult) (cache : Cache) (fp : String)
    (now now2 : Nat) (ttl : Option Nat) :
    (∀ e, cache fp = some e → isExpired ttl now e = false →
      cachedSend net cache fp now ttl = (toSendResult e.value, cache, 0)) ∧
    (∀ c, cache fp = some ⟨.confirmedAbsent, c⟩ →
      isExpired ttl now ⟨.confirmedAbsent, c⟩ = false →
      cachedSend net cache fp now ttl = (.notFound, cache, 0)) ∧
    (cache fp = none →
      (cachedSend net cache fp now ttl).2.2 = 1 ∧
      (cachedSend net cache fp now ttl).1 = net ∧
      (∀ cv, cacheValueOf net = some cv →
        (cachedSend net cache fp now ttl).2.1 fp = some ⟨cv, now⟩)) ∧
    (∀ e, cache fp = some e → isExpired ttl now e = true →
      cachedSend net cache fp now ttl = cacheMiss net cache fp now) ∧
    ((cachedSend net cache fp now ttl).1 ≠ .transportError →
      (∀ e, (cachedSend net cache fp now ttl).2.1 fp = some e →
        isExpired ttl now2 e = false) →
      cachedSend net2 (cachedSend net cache fp now ttl).2.1 fp now2 ttl =
        ((cachedSend net cache fp now ttl).1, (cachedSend net cache fp now ttl).2.1, 0)) := by
  refine ⟨?_, ?_, ?_, ?_, ?_⟩
  · intro e he hx; simp [cachedSend, he, hx]
  · intro c hc hx; simp [cachedSend, hc, hx, toSendResult]
  · intro h
    refine ⟨?_, ?_, ?_⟩
    · cases hn : net <;> simp [cachedSend, h, cacheMiss, cacheValueOf, hn]
    · cases hn : net <;> simp [cachedSend, h, cacheMiss, cacheValueOf, hn]
    · intro cv hcv; simp [cachedSend, h, cacheMiss, hcv]
  · intro e he hx; simp [cachedSend, he, hx]
  · intro hdef hfresh
    rcases h : cache fp with _ | e
    · rcases hn : net with p | _ | _
      · have hc : (cachedSend net cache fp now ttl).2.1 fp = some ⟨.hit p, now⟩ := by
          simp [cachedSend, h, hn, cacheMiss, cacheValueOf]
        have hf := hfresh _ hc
        simp [cachedSend, cacheMiss, cacheValueOf, h, hn, hf, toSendResult]
      · have hc : (cachedSend net cache fp now ttl).2.1 fp =
            some ⟨.confirmedAbsent, now⟩ := by
          simp [cachedSend, h, hn, cacheMiss, cacheValueOf]
        have hf := hfresh _ hc
        simp [cachedSend, cacheMiss, cacheValueOf, h, hn, hf, toSendResult]
      · exfalso
        apply hdef
        simp [cachedSend, h, hn, cacheMiss, cacheValueOf]
    · by_cases hx : isExpired ttl now e = true
      · rcases hn : net with p | _ | _
        · have hc : (cachedSend net cache fp now ttl).2.1 fp = some ⟨.hit p, now⟩ := by
            simp [cachedSend, h, hn, hx, cacheMiss, cacheValueOf]
          have hf := hfresh _ hc
          simp [cachedSend, cacheMiss, cacheValueOf, h, hn, hx, hf, toSendResult]
        · have hc : (cachedSend net cache fp now ttl).2.1 fp =
              some ⟨.confirmedAbsent, now⟩ := by
            simp [cachedSend, h, hn, hx, cacheMiss, cacheValueOf]
          have hf := hfresh _ hc
          simp [cachedSend, cacheMiss, cacheValueOf, h, hn, hx, hf, toSendResult]
        · exfalso
          apply hdef
          simp [cachedSend, h, hn, hx, cacheMiss, cacheValueOf]
      · have hx2 : isExpired ttl now e = false := by simpa using hx
        have hc : (cachedSend net cache fp now ttl).2.1 fp = some e := by
          simp [cachedSend, h, hx2]
        have hf := hfresh _ hc
        simp [cachedSend, h, hx2, hf]

/-- Witness for C5 at a concrete cache: a warm hit replays the cached
payload with zero outbound calls even though the live network would fail;
a miss issues exactly one outbound call; and the repeated identical call
against the now-warm cache returns the identical result with zero calls. -/
theorem cache_semantics_witness :
    cachedSend .transportError demoCache "fp1" 20 (some 100) =
      (.success "cached", demoCache, 0) ∧
    (cachedSend (.success "fresh") emptyCache "fp2" 5 (some 100)).2.2 = 1 ∧
    cachedSend .notFound
        (cachedSend (.success "fresh") emptyCache "fp2" 5 (some 100)).2.1
        "fp2" 6 (some 100) =
      (.success "fresh",
        (cachedSend (.success "fresh") emptyCache "fp2" 5 (some 100)).2.1, 0) := by
  refine ⟨?_, ?_, ?_⟩
  · exact (cache_semantics .transportError .transportError demoCache "fp1" 20 20
      (some 100)).1 demoEntry rfl (by decide)
  · exact ((cache_semantics (.success "fresh") .notFound emptyCache "fp2" 5 5
      (some 100)).2.2.1 rfl).1
  · refine (cache_semantics (.success "fresh") .notFound emptyCache "fp2" 5 6
      (some 100)).2.2.2.2 (by decide) ?_
    intro e he
    have h2 : (cachedSend (.success "fresh") emptyCache "fp2" 5 (some 100)).2.1 "fp2" =
        some ⟨.hit "fresh", 5⟩ := rfl
    rw [h2] at he
    rw [← Option.some.inj he]
    decide

/-- Helper: the pagination loop over the remote serving the page list
`ps` from position `i` returns exactly the concatenation of the pages
from `i` on, given enough fuel. -/
theorem fetchAllPages_pagedRemote {α : Type} (ps : List (List α)) :
    ∀ (fuel i : Nat), i < ps.length → ps.length - i ≤ fuel →
      fetchAllPages (pagedRemote ps) i fuel = some (ps.drop i).flatten := by
  intro fuel
  induction fuel with
  | zero => intro i h1 h2; omega
  | succ fuel ih =>
    intro i h1 h2
    by_cases hnext : i + 1 < ps.length
    · simp only [fetchAllPages, pagedRemote, hnext, if_true]
      rw [ih (i + 1) hnext (by omega), List.getD_eq_getElem ps [] h1]
      conv_rhs => rw [List.drop_eq_getElem_cons h1, List.flatten_cons]
      simp
    · simp only [fetchAllPages, pagedRemote, hnext, if_false]
      rw [List.getD_eq_getElem ps [] h1]
      conv_rhs => rw [List.drop_eq_getElem_cons h1, List.drop_eq_nil_of_le (by omega),
        List.flatten_cons, List.flatten_nil, List.append_nil]

/-- C6: for a chunk whose remote responses page out a non-empty page
list via continuation tokens, the dispatcher keeps following the token
until it is exhausted and returns the complete merged set — the
concatenation of all pages, never only the first page. -/
theorem pagination_complete {α : Type} (ps : List (List α)) (fuel : Nat)
    (hne : ps ≠ []) (hf : ps.length ≤ fuel) :
    fetchAllPages (pagedRemote ps) 0 fuel = some ps.flatten := by
  have h1 : 0 < ps.length := List.length_pos.mpr hne
  simpa using fetchAllPages_pagedRemote ps fuel 0 h1 (by omega)

/-- Witness for C6 at a concrete three-page result: the merged set
contains every page, in order. -/
theorem pagination_complete_witness :
    fetchAllPages (pagedRemote [[1, 2], [3], [4, 5]]) 0 3 = some [1, 2, 3, 4, 5] :=
  pagination_complete [[1, 2], [3], [4, 5]] 3 (by decide) (by decide)

/-- Helper: the admission discipline guarantees the gap property — the
request `limit * k` positions later is sent at least `period * k` later. -/
theorem sendTime_gap (limit period : Nat) (req : Nat → Nat) (hl : 0 < limit) :
    ∀ (k i : Nat), 0 < k →
      sendTime limit period req i + period * k ≤
        sendTime limit period req (i + limit * k) := by
  intro k
  induction k with
  | zero => intro i hk; omega
  | succ k ih =>
    intro i hk
    rw [Nat.mul_succ, Nat.mul_succ]
    have hlim : limit ≤ i + (limit * k + limit) := by omega
    have hcond : 0 < limit ∧ limit ≤ i + (limit * k + limit) := ⟨hl, hlim⟩
    conv_rhs => rw [sendTime]
    rw [dif_pos hcond]
    have harg : i + (limit * k + limit) - limit = i + limit * k := by omega
    rw [harg]
    rcases Nat.eq_zero_or_pos k with rfl | hkpos
    · simp only [Nat.mul_zero, Nat.add_zero, Nat.zero_add]
      exact le_max_right _ _
    · have ihk := ih i hkpos
      refine le_trans (show sendTime limit period req i + (period * k + period) ≤
        sendTime limit period req (i + limit * k) + period from by omega) (le_max_right _ _)

/-- C7: rate invariant — for every run of the limiter-scheduled
transport, every window of length `period` (the trailing one-second
window, for `period` one second) contains at most `limit` outbound send
times, whatever the request arrival times. -/
theorem rate_limit_window (limit period : Nat) (req : Nat → Nat) (hl : 0 < limit)
    (t n : Nat) :
    ((Finset.range n).filter (fun i =>
      t ≤ sendTime limit period req i ∧
        sendTime limit period req i < t + period)).card ≤ limit := by
  have key : ∀ a b, a ∈ (Finset.range n).filter (fun i =>
      t ≤ sendTime limit period req i ∧ sendTime limit period req i < t + period) →
      b ∈ (Finset.range n).filter (fun i =>
      t ≤ sendTime limit period req i ∧ sendTime limit period req i < t + period) →
      a < b → a % limit ≠ b % limit := by
    intro a b ha hb hab hmod
    rw [Finset.mem_filter] at ha hb
    obtain ⟨k, hk⟩ := (Nat.modEq_iff_dvd' (le_of_lt hab)).mp hmod
    have hkpos : 0 < k := by
      rcases Nat.eq_zero_or_pos k with rfl | hkpos
      · omega
      · exact hkpos
    have hb2 : b = a + limit * k := by omega
    have hgap := sendTime_gap limit period req hl k a hkpos
    rw [← hb2] at hgap
    have hpk : period ≤ period * k := Nat.le_mul_of_pos_right period hkpos
    omega
  have hinj := Finset.card_le_card_of_injOn (fun i => i % limit)
    (fun a _ => Finset.mem_range.mpr (Nat.mod_lt a hl))
    (fun a ha b hb hab => by
      rcases lt_trichotomy a b with hlt | heq | hgt
      · exact absurd hab (key a b (Finset.mem_coe.mp ha) (Finset.mem_coe.mp hb) hlt)
      · exact heq
      · exact absurd hab.symm (key b a (Finset.mem_coe.mp hb) (Finset.mem_coe.mp ha) hgt))
  simpa using hinj

/-- Witness for C7 at a concrete schedule: with a ceiling of 2 per 1000
time units and five requests all ready at time 0, no window of length
1000 contains more than 2 sends. -/
theorem rate_limit_window_witness :
    ((Finset.range 5).filter (fun i =>
      0 ≤ sendTime 2 1000 (fun _ => 0) i ∧
        sendTime 2 1000 (fun _ => 0) i < 0 + 1000)).card ≤ 2 :=
  rate_limit_window 2 1000 (fun _ => 0) (by decide) 0 5

end ChemInformant
